import Mathlib

/-!
Verification of the real-time EEG filtering and spectral-aggregation pipeline
implemented in `src/ProcessEEG.py` (class `EEGVisualizer`).

The numerical code is shallowly embedded as follows.

* Python floats are idealised as exact numbers; the per-block pipeline is also
  given a second, IEEE-NaN-aware value domain `Fl` (a real number or NaN) so
  that propagation of non-finite values can be stated faithfully.
* Library calls (`scipy.signal.lfilter`, `scipy.signal.iirnotch`,
  `scipy.signal.butter`, `np.fft.rfft`, `np.fft.rfftfreq`, `np.mean`, boolean
  mask indexing) are embedded from their documented/implemented semantics,
  since the repository itself only calls them; each embedding's doc comment
  records the semantics being modelled.
* Stateful parts (the `timeSignal` slot written by `audio_callback` and read
  by `update`, and the three plot surfaces written by `update`) are modelled
  by explicit state passing on a `VisState` record.
-/

namespace ProcessEEG

/-! ### Generic streaming filter (scipy.signal.lfilter) -/

/-- Feedforward part of the `lfilter` difference equation at output index `n`:
`∑ i, b[i] * x[n-i]`, with `x[k] = 0` for `k < 0` (zero initial conditions)
and for `k` past the end of the block. -/
def convSum {α : Type} [Add α] [Mul α] [Zero α] (b x : List α) (n : ℕ) : α :=
  ((List.range b.length).map
    (fun i => b.getD i 0 * (if i ≤ n then x.getD (n - i) 0 else 0))).sum

/-- Feedback part of the `lfilter` difference equation at output index `n`:
`∑ j ≥ 1, a[j] * y[n-j]`, with `y[k] = 0` for `k < 0` (zero initial
conditions); `ys` is the list of already computed outputs `y[0..n-1]`. -/
def fbSum {α : Type} [Add α] [Mul α] [Zero α] (a ys : List α) (n : ℕ) : α :=
  ((List.range (a.length - 1)).map
    (fun j => a.getD (j + 1) 0 * (if j + 1 ≤ n then ys.getD (n - (j + 1)) 0 else 0))).sum

/-- First `n` outputs of the causal direct-form recursion
`a[0] * y[n] = ∑ b[i] x[n-i] - ∑_{j≥1} a[j] y[n-j]` with zero initial state. -/
def lfilterRec {α : Type} [Add α] [Mul α] [Sub α] [Div α] [Zero α]
    (b a x : List α) : ℕ → List α
  | 0 => []
  | n + 1 =>
    let ys := lfilterRec b a x n
    ys ++ [(convSum b x n - fbSum a ys n) / a.getD 0 0]

/-- Embedding of `scipy.signal.lfilter(b, a, x)` (1-D, no `zi` argument):
the standard linear-filter difference equation applied along `x`, starting
from zero initial conditions, returning one output per input sample.
`apply_filter(data, (b, a))` in `src/ProcessEEG.py` is exactly this call. -/
def lfilter {α : Type} [Add α] [Mul α] [Sub α] [Div α] [Zero α]
    (b a x : List α) : List α :=
  lfilterRec b a x x.length

/-! ### FFT-size fitting and spectrum (np.fft.rfft / np.fft.rfftfreq) -/

/-- Embedding of how `np.fft.rfft(x, n)` preprocesses its input when the
`n` argument is given: the input is cropped to its first `n` entries if it is
longer than `n`, and zero-padded at the end to length `n` if it is shorter. -/
def fit {α : Type} [Zero α] (x : List α) (n : ℕ) : List α :=
  x.take n ++ List.replicate (n - x.length) 0

/-- Bin `k` of the discrete Fourier transform of a real block:
`∑ j, x[j] * exp(-2πi·j·k/n)`. -/
noncomputable def dftBin (x : List ℝ) (n k : ℕ) : ℂ :=
  ((List.range x.length).map
    (fun j => (x.getD j 0 : ℂ) *
      Complex.exp (-(2 * Real.pi * j * k / n : ℝ) * Complex.I))).sum

/-- Embedding of `np.abs(np.fft.rfft(x, n))`: the input is brought to length
`n` by `fit`, and the magnitudes of the `n/2 + 1` non-negative-frequency DFT
coefficients are returned. -/
noncomputable def rfftAbs (x : List ℝ) (n : ℕ) : List ℝ :=
  (List.range (n / 2 + 1)).map (fun k => Complex.abs (dftBin (fit x n) n k))

/-- Embedding of `np.fft.rfftfreq(n, d)`: the `n/2 + 1` sample frequencies
`k / (n*d)` of the non-negative-frequency DFT bins. -/
def rfftfreq (n : ℕ) (d : ℚ) : List ℚ :=
  (List.range (n / 2 + 1)).map (fun k : ℕ => (k : ℚ) / (n * d))

/-- The visualizer's fixed frequency-bin table
`self.freqs = np.fft.rfftfreq(self.fft_size, 1/self.fs)` with
`fft_size = 256` and `fs = 256`. -/
def freqs : List ℚ := rfftfreq 256 (1 / 256)

/-! ### Band aggregation (boolean mask + np.mean) -/

/-- The six fixed brainwave bands of `update`, in source order:
Delta, Theta, Alpha, Low Beta, High Beta, Gamma. -/
def bandsList : List (ℚ × ℚ) :=
  [(0, 4), (4, 8), (8, 12), (12, 20), (20, 30), (30, 45)]

/-- Embedding of the numpy boolean mask `(self.freqs >= low) & (self.freqs <= high)`
computed in `update` for a band `(low, high)`. -/
def bandMask (low high : ℚ) : List Bool :=
  freqs.map (fun q => decide (low ≤ q) && decide (q ≤ high))

/-- Embedding of numpy boolean-mask indexing `data[mask]`: keep the entries of
`s` at the positions where `m` is `true`, in order. -/
def boolSelect {α : Type} (m : List Bool) (s : List α) : List α :=
  ((m.zip s).filter Prod.fst).map Prod.snd

/-- Embedding of `np.mean(l)` for a 1-D selection: the arithmetic mean
`sum / length`; on an empty selection numpy produces NaN, embedded here
as `none`. -/
def npMean {α : Type} [Add α] [Div α] [Zero α] [NatCast α] (l : List α) : Option α :=
  if l.isEmpty then none else some (l.sum / (l.length : α))

/-- Embedding of the `avg_heights` loop of `update`: for each band
`(low, high)` in order, `np.mean(fft_data[(freqs >= low) & (freqs <= high)])`. -/
def avgHeights {α : Type} [Add α] [Div α] [Zero α] [NatCast α]
    (fftData : List α) : List (Option α) :=
  bandsList.map (fun p => npMean (boolSelect (bandMask p.1 p.2) fftData))

/-! ### Spec-side band average (for the refinement claims)

The specification describes the aggregator as: select all spectrum bins whose
frequency lies in `[low, high]` inclusive and compute their arithmetic mean
magnitude, where bin `k` has frequency `k * fs / fft_size` (here `k` Hz). -/

/-- Frequency, in Hz, of spectrum bin `k` in the deployed configuration:
`k * fs / fft_size = k * 256 / 256`. -/
def binFreq (k : ℕ) : ℚ := (k : ℚ) * 256 / 256

/-- Indices of the spectrum bins whose frequency lies in `[low, high]`
inclusive, among the 129 bins of the deployed spectrum. -/
def specBandBins (low high : ℚ) : List ℕ :=
  (List.range 129).filter (fun k => decide (low ≤ binFreq k ∧ binFreq k ≤ high))

/-- Arithmetic mean of the magnitudes of the spectrum bins of `s` whose
frequency lies in `[low, high]` inclusive, following the specification's
wording for the band aggregator. -/
def specBandAvg {α : Type} [Add α] [Div α] [Zero α] [NatCast α]
    (low high : ℚ) (s : List α) : α :=
  ((specBandBins low high).map (fun k => s.getD k 0)).sum /
    ((specBandBins low high).length : α)

/-! ### Filter design (scipy.signal.iirnotch / scipy.signal.butter) -/

/-- Design-time parameter validation failure (`ValueError` in scipy). -/
inductive DesignError where
  | invalidParams : DesignError

/-- Coefficients `(b, a)` computed by `scipy.signal.iirnotch(w0, Q)` once its
validation has passed (scipy `_design_notch_peak_filter` with notch gain
`gb = 1/√2`, for which `√(1-gb²)/gb = 1`): with `w = w0·π`, `bw = (w0/Q)·π`,
`beta = tan(bw/2)` and `gain = 1/(1+beta)`, the numerator is
`b = gain·[1, -2·cos w, 1]` and the denominator is
`a = [1, -2·gain·cos w, 2·gain - 1]`. -/
noncomputable def notchCoeffs (w0 Q : ℝ) : List ℝ × List ℝ :=
  let w := w0 * Real.pi
  let bw := w0 / Q * Real.pi
  let beta := Real.tan (bw / 2)
  let gain := 1 / (1 + beta)
  ([gain, -2 * gain * Real.cos w, gain],
   [1, -2 * gain * Real.cos w, 2 * gain - 1])

/-- Embedding of `scipy.signal.iirnotch(w0, Q)` including its validation:
scipy raises `ValueError` exactly when `w0 > 1.0 or w0 < 0.0` (the check is
non-strict at the boundary, so `w0 = 0.0` and `w0 = 1.0` are accepted) and
otherwise returns the notch coefficients. -/
noncomputable def iirnotch (w0 Q : ℝ) : Except DesignError (List ℝ × List ℝ) :=
  if 1 < w0 ∨ w0 < 0 then Except.error DesignError.invalidParams
  else Except.ok (notchCoeffs w0 Q)

/-- Embedding of `create_notch_filter(notch_freq, fs, quality)`: normalize the
notch frequency by the Nyquist frequency `0.5 * fs` and design with
`signal.iirnotch`. -/
noncomputable def create_notch_filter (notch_freq fs quality : ℝ) :
    Except DesignError (List ℝ × List ℝ) :=
  iirnotch (notch_freq / (0.5 * fs)) quality

/-- Embedding of the digital-parameter validation performed by
`scipy.signal.butter(4, [low, high], btype='band')` (in `iirfilter`): scipy
raises `ValueError` unless `0 < Wn < 1` holds strictly for both normalized
critical frequencies. The Butterworth coefficient computation itself is not
needed by any claim here and the successful result is represented by the
validated normalized band edges. -/
noncomputable def butterBand (low high : ℝ) : Except DesignError (ℝ × ℝ) :=
  if low ≤ 0 ∨ 1 ≤ low ∨ high ≤ 0 ∨ 1 ≤ high then
    Except.error DesignError.invalidParams
  else Except.ok (low, high)

/-- Embedding of `create_bandpass(center, bandwidth, fs)`: normalize the band
edges `center ± bandwidth/2` by the Nyquist frequency and design with
`signal.butter`. -/
noncomputable def create_bandpass (center bandwidth fs : ℝ) :
    Except DesignError (ℝ × ℝ) :=
  butterBand ((center - bandwidth / 2) / (0.5 * fs))
    ((center + bandwidth / 2) / (0.5 * fs))

/-- The deployed notch design: `create_notch_filter(60, 256)` with the default
quality factor 30 normalizes 60 Hz to `60 / 128` and its validation passes,
yielding these coefficients. -/
noncomputable def notchBA : List ℝ × List ℝ := notchCoeffs (60 / (0.5 * 256)) 30

/-- Numerator coefficients of the deployed 60 Hz notch. -/
noncomputable def nb : List ℝ := notchBA.1

/-- Denominator coefficients of the deployed 60 Hz notch. -/
noncomputable def na : List ℝ := notchBA.2

/-! ### IEEE-NaN-aware value domain for the per-block pipeline -/

/-- A Python float flowing through the per-block pipeline: NaN or a finite
value (idealised as a real number). Arithmetic propagates NaN absorbingly as
IEEE-754 does for the operations this pipeline performs; infinities and
rounding are not modelled, and division is only ever applied to nonzero
finite divisors here (`a[0] = 1` and nonempty selection counts). -/
inductive Fl where
  | nan : Fl
  | fin : ℝ → Fl

/-- Whether the value is NaN. -/
def Fl.isNan : Fl → Bool
  | Fl.nan => true
  | Fl.fin _ => false

/-- The finite value carried, with a junk default on NaN (only applied to
NaN-free data). -/
def Fl.val : Fl → ℝ
  | Fl.nan => 0
  | Fl.fin x => x

instance : Zero Fl := ⟨Fl.fin 0⟩

instance : Add Fl :=
  ⟨fun a b => match a, b with
    | Fl.fin x, Fl.fin y => Fl.fin (x + y)
    | _, _ => Fl.nan⟩

instance : Mul Fl :=
  ⟨fun a b => match a, b with
    | Fl.fin x, Fl.fin y => Fl.fin (x * y)
    | _, _ => Fl.nan⟩

instance : Sub Fl :=
  ⟨fun a b => match a, b with
    | Fl.fin x, Fl.fin y => Fl.fin (x - y)
    | _, _ => Fl.nan⟩

noncomputable instance : Div Fl :=
  ⟨fun a b => match a, b with
    | Fl.fin x, Fl.fin y => if y = 0 then Fl.nan else Fl.fin (x / y)
    | _, _ => Fl.nan⟩

instance : NatCast Fl := ⟨fun n => Fl.fin n⟩

/-- Lift a list of exact reals into the float domain. -/
def flList (x : List ℝ) : List Fl := x.map Fl.fin

/-- Numerator coefficients of the deployed notch, in the float domain. -/
noncomputable def nbF : List Fl := flList nb

/-- Denominator coefficients of the deployed notch, in the float domain. -/
noncomputable def naF : List Fl := flList na

/-- NaN-aware `np.abs(np.fft.rfft(x, 256))`: every DFT output bin is a sum
involving every input sample, so if the fitted block contains a NaN then all
129 output bins are NaN; otherwise the exact magnitudes are produced. -/
noncomputable def rfftAbsF (x : List Fl) : List Fl :=
  if (fit x 256).any Fl.isNan then List.replicate 129 Fl.nan
  else flList (rfftAbs ((fit x 256).map Fl.val) 256)

/-- NaN-aware `np.mean`: the mean of an empty selection is NaN, and a NaN in
the selection propagates into the mean through the sum. -/
noncomputable def npMeanF (l : List Fl) : Fl := (npMean l).getD Fl.nan

/-- The `avg_heights` loop of `update`, in the float domain. -/
noncomputable def avgHeightsF (fftData : List Fl) : List Fl :=
  bandsList.map (fun p => npMeanF (boolSelect (bandMask p.1 p.2) fftData))

/-! ### State machine: `audio_callback` and `update` -/

/-- Mutable visualizer state touched by the embedded methods: the shared
current-block slot `timeSignal` (written by `audio_callback`, read by
`update`) and the three plot surfaces (written by `update`). -/
structure VisState where
  timeSignal : List Fl
  timeCurveData : List Fl
  freqBarsHeights : List Fl
  avgBarsHeights : List Fl

/-- Per-cycle numeric outputs emitted by `update` to the display layer. -/
structure UpdateOut where
  filtered : List Fl
  fftData : List Fl
  avgHs : List Fl

/-- Embedding of `update(self)`: if the current block is empty, return
immediately, leaving all state unchanged and emitting nothing; otherwise
notch-filter the block (`apply_filter`, i.e. `lfilter` from zero initial
conditions — no filter state exists across calls), compute
`fft_data = np.abs(np.fft.rfft(filtered, fft_size))`, write the three plot
surfaces (`filtered * timeScale` with `timeScale = 50`, `fft_data[:30]`,
`avg_heights`), and emit the per-cycle outputs. The Python method contains no
`raise` and no finiteness check, so the embedding has no failure path. -/
noncomputable def update (s : VisState) : VisState × Option UpdateOut :=
  if s.timeSignal.length = 0 then (s, none)
  else
    let filtered := lfilter nbF naF s.timeSignal
    let fftData := rfftAbsF filtered
    let avgHs := avgHeightsF fftData
    (⟨s.timeSignal, filtered.map (fun v => v * ((50 : ℕ) : Fl)),
       fftData.take 30, avgHs⟩,
     some ⟨filtered, fftData, avgHs⟩)

/-- Embedding of `audio_callback`: overwrite the shared current-block slot
with the newly captured block (`self.timeSignal = indata[:, 0]`). -/
def audioCallback (s : VisState) (indata : List Fl) : VisState :=
  ⟨indata, s.timeCurveData, s.freqBarsHeights, s.avgBarsHeights⟩

/-! ### Frequency response -/

/-- Value at `e^{-iθ}` of the polynomial with real coefficient list `q`:
`∑ k, q[k]·e^{-iθk}`. -/
noncomputable def respPoly (q : List ℝ) (θ : ℝ) : ℂ :=
  ((List.range q.length).map
    (fun k : ℕ => (q.getD k 0 : ℂ) * Complex.exp ((-(θ * k) : ℝ) * Complex.I))).sum

/-- Frequency response of the digital filter `(b, a)` at normalized angular
frequency `θ` radians/sample (`θ = 2π·f/fs` for a physical frequency `f`).
For a stable filter, `Complex.abs (freqResponse b a θ)` is the steady-state
amplitude gain of the filter on a sinusoid of that frequency: this is the
standard reading of the specification's steady-state attenuation language.
An attenuation of at least 20 dB means gain `≤ 10^(-20/20) = 1/10`; an
attenuation of less than 1 dB means gain `> 10^(-1/20)`, equivalently
`gain^20 > 1/10`. -/
noncomputable def freqResponse (b a : List ℝ) (θ : ℝ) : ℂ :=
  respPoly b θ / respPoly a θ

/-- The `beta` intermediate of the deployed notch design:
`tan(bw/2)` with `bw = (w0/Q)·π`, `w0 = 60/128`, `Q = 30`. -/
noncomputable def tN : ℝ := Real.tan ((60 / (0.5 * 256)) / 30 * Real.pi / 2)

/-- The `cos(w0·π)` intermediate of the deployed notch design. -/
noncomputable def cN : ℝ := Real.cos ((60 / (0.5 * 256)) * Real.pi)

/-- The `gain` intermediate of the deployed notch design. -/
noncomputable def gN : ℝ := 1 / (1 + tN)

/-! ## Lemmas -/

/-- The deployed notch numerator in terms of the named intermediates. -/
lemma nb_eq : nb = [gN, -2 * gN * cN, gN] := rfl

/-- The deployed notch denominator in terms of the named intermediates. -/
lemma na_eq : na = [1, -2 * gN * cN, 2 * gN - 1] := rfl

/-- The frequency-bin table is exactly `0, 1, ..., 128` Hz: bin `k` sits at
`k / (256 * (1/256)) = k` Hz. -/
lemma freqs_eq : freqs = (List.range 129).map (fun k : ℕ => (k : ℚ)) := by
  rw [freqs, rfftfreq]
  apply List.map_congr_left
  intro k _
  push_cast
  norm_num

/-- Boolean-mask selection against a mask generated from indices `j, j+1, ...`
keeps exactly the entries at indices whose generator satisfies the predicate. -/
lemma boolSelect_range' {α : Type} [Zero α] (p : ℕ → Bool) :
    ∀ (s : List α) (j : ℕ),
      boolSelect ((List.range' j s.length).map p) s
        = ((List.range' j s.length).filter p).map (fun k => s.getD (k - j) 0)
  | [], j => by simp [boolSelect]
  | a :: t, j => by
    have hr : List.range' j (a :: t).length = j :: List.range' (j + 1) t.length := by
      simpa using List.range'_succ j t.length 1
    have IH := boolSelect_range' p t (j + 1)
    simp only [boolSelect] at IH ⊢
    rw [hr]
    cases hpj : p j with
    | true =>
      simp [List.zip_cons_cons, List.filter_cons, hpj, IH]
      all_goals
        intro k hk1 hk2 hkp
        have hkj : k - j = (k - (j + 1)) + 1 := by omega
        rw [hkj]
        simp [List.getElem?_cons_succ]
    | false =>
      simp [List.zip_cons_cons, List.filter_cons, hpj, IH]
      all_goals
        intro k hk1 hk2 hkp
        have hkj : k - j = (k - (j + 1)) + 1 := by omega
        rw [hkj]
        simp [List.getElem?_cons_succ]

/-- Special case of `boolSelect_range'` for masks over `List.range 129`. -/
lemma boolSelect_map_range {α : Type} [Zero α] (p : ℕ → Bool) (s : List α)
    (h : s.length = 129) :
    boolSelect ((List.range 129).map p) s
      = ((List.range 129).filter p).map (fun k => s.getD k 0) := by
  have h0 := boolSelect_range' p s 0
  rw [h] at h0
  rw [List.range_eq_range']
  simpa using h0

/-- For natural band edges the numpy mask reduces to a mask on bin indices. -/
lemma bandMask_nat (lo hi : ℕ) :
    bandMask (lo : ℚ) (hi : ℚ)
      = (List.range 129).map (fun k => decide (lo ≤ k ∧ k ≤ hi)) := by
  rw [bandMask, freqs_eq, List.map_map]
  apply List.map_congr_left
  intro k _
  have h1 : decide ((lo : ℚ) ≤ (k : ℚ)) = decide (lo ≤ k) :=
    decide_eq_decide.mpr Nat.cast_le
  have h2 : decide ((k : ℚ) ≤ (hi : ℚ)) = decide (k ≤ hi) :=
    decide_eq_decide.mpr Nat.cast_le
  simp only [Function.comp, h1, h2, Bool.decide_and]

/-- Selecting with a natural-edged band mask picks the spectrum values at the
bin indices inside the band. -/
lemma boolSelect_bandMask (lo hi : ℕ) {α : Type} [Zero α] (s : List α)
    (h : s.length = 129) :
    boolSelect (bandMask (lo : ℚ) (hi : ℚ)) s
      = ((List.range 129).filter (fun k => decide (lo ≤ k ∧ k ≤ hi))).map
          (fun k => s.getD k 0) := by
  rw [bandMask_nat, boolSelect_map_range _ _ h]

/-- The spec-side bin index set coincides with the code-side index filter for
natural band edges. -/
lemma specBandBins_nat (lo hi : ℕ) :
    specBandBins (lo : ℚ) (hi : ℚ)
      = (List.range 129).filter (fun k => decide (lo ≤ k ∧ k ≤ hi)) := by
  apply List.filter_congr
  intro k _
  have hb : binFreq k = (k : ℚ) := by
    rw [binFreq]
    norm_num
  rw [hb]
  simp only [decide_eq_decide]
  constructor
  · intro hq
    exact ⟨by exact_mod_cast hq.1, by exact_mod_cast hq.2⟩
  · intro hn
    exact ⟨by exact_mod_cast hn.1, by exact_mod_cast hn.2⟩

/-- The code's per-band aggregation agrees with the specification's
arithmetic-mean-over-bins, for a band with natural edges containing at least
one bin. -/
lemma aggBand {α : Type} [Field α] (lo hi : ℕ) (s : List α)
    (h : s.length = 129)
    (hne : (List.range 129).filter (fun k => decide (lo ≤ k ∧ k ≤ hi)) ≠ []) :
    npMean (boolSelect (bandMask (lo : ℚ) (hi : ℚ)) s)
      = some (specBandAvg (lo : ℚ) (hi : ℚ) s) := by
  rw [boolSelect_bandMask lo hi s h, specBandAvg, specBandBins_nat]
  have hne' : ((List.range 129).filter (fun k => decide (lo ≤ k ∧ k ≤ hi))).map
      (fun k => s.getD k 0) ≠ [] := by
    simpa using hne
  rw [npMean, if_neg (by simpa [List.isEmpty_iff] using hne')]
  simp

/-- The code's whole aggregation loop, written out band by band against the
specification's arithmetic-mean form. -/
lemma avgHeights_eq_spec {α : Type} [Field α] (s : List α) (h : s.length = 129) :
    avgHeights s
      = [some (specBandAvg 0 4 s), some (specBandAvg 4 8 s),
         some (specBandAvg 8 12 s), some (specBandAvg 12 20 s),
         some (specBandAvg 20 30 s), some (specBandAvg 30 45 s)] := by
  have h04 := aggBand 0 4 s h (by decide)
  have h48 := aggBand 4 8 s h (by decide)
  have h812 := aggBand 8 12 s h (by decide)
  have h1220 := aggBand 12 20 s h (by decide)
  have h2030 := aggBand 20 30 s h (by decide)
  have h3045 := aggBand 30 45 s h (by decide)
  norm_num at h04 h48 h812 h1220 h2030 h3045
  simp [avgHeights, bandsList, h04, h48, h812, h1220, h2030, h3045]

/-- The band `[9/2, 19/4]` lies strictly between the 4 Hz and 5 Hz bins, so
its mask selects nothing. -/
lemma emptyBand_mask : bandMask (9 / 2) (19 / 4) = List.replicate 129 false := by
  rw [bandMask, freqs_eq, List.map_map]
  have hconst : ∀ k ∈ List.range 129,
      ((fun q : ℚ => decide ((9 / 2 : ℚ) ≤ q) && decide (q ≤ (19 / 4 : ℚ))) ∘
        fun k : ℕ => (k : ℚ)) k = (fun _ : ℕ => false) k := by
    intro k _
    simp only [Function.comp]
    rcases Nat.lt_or_ge k 5 with hk | hk
    · have hq : (k : ℚ) < 9 / 2 := by
        have : (k : ℚ) ≤ 4 := by exact_mod_cast Nat.lt_succ_iff.mp hk
        linarith
      simp [not_le.mpr hq]
    · have hq : (19 / 4 : ℚ) < (k : ℚ) := by
        have : (5 : ℚ) ≤ (k : ℚ) := by exact_mod_cast hk
        linarith
      simp [not_le.mpr hq]
  rw [List.map_congr_left hconst]
  simp [List.map_const]

/-- Selecting with an all-`false` mask yields the empty selection. -/
lemma boolSelect_false {α : Type} : ∀ (n : ℕ) (s : List α),
    boolSelect (List.replicate n false) s = []
  | 0, _ => by simp [boolSelect]
  | _ + 1, [] => by simp [boolSelect]
  | n + 1, a :: t => by
    have IH := boolSelect_false n t
    simp only [boolSelect, List.replicate_succ, List.zip_cons_cons,
      List.filter_cons] at IH ⊢
    simpa using IH

/-- The fitted block always has length exactly `n`. -/
lemma fit_length {α : Type} [Zero α] (x : List α) (n : ℕ) : (fit x n).length = n := by
  simp only [fit, List.length_append, List.length_take, List.length_replicate]
  omega

/-- A short block is fitted by appending zeros. -/
lemma fit_of_short {α : Type} [Zero α] (x : List α) (n : ℕ) (h : x.length ≤ n) :
    fit x n = x ++ List.replicate (n - x.length) 0 := by
  rw [fit, List.take_of_length_le h]

/-- A long block is fitted by truncation. -/
lemma fit_of_long {α : Type} [Zero α] (x : List α) (n : ℕ) (h : n ≤ x.length) :
    fit x n = x.take n := by
  rw [fit, Nat.sub_eq_zero_of_le h]
  simp

/-- Fitting is idempotent. -/
lemma fit_idem {α : Type} [Zero α] (x : List α) (n : ℕ) :
    fit (fit x n) n = fit x n := by
  rw [fit_of_long (fit x n) n (by rw [fit_length]), List.take_of_length_le (by rw [fit_length])]

/-! ### Float-domain arithmetic lemmas -/

@[simp] lemma fl_nan_add (b : Fl) : Fl.nan + b = Fl.nan := by cases b <;> rfl

@[simp] lemma fl_add_nan (a : Fl) : a + Fl.nan = Fl.nan := by cases a <;> rfl

@[simp] lemma fl_fin_add_fin (x y : ℝ) : Fl.fin x + Fl.fin y = Fl.fin (x + y) := rfl

@[simp] lemma fl_nan_mul (b : Fl) : Fl.nan * b = Fl.nan := by cases b <;> rfl

@[simp] lemma fl_mul_nan (a : Fl) : a * Fl.nan = Fl.nan := by cases a <;> rfl

@[simp] lemma fl_fin_mul_fin (x y : ℝ) : Fl.fin x * Fl.fin y = Fl.fin (x * y) := rfl

@[simp] lemma fl_nan_sub (b : Fl) : Fl.nan - b = Fl.nan := by cases b <;> rfl

@[simp] lemma fl_sub_nan (a : Fl) : a - Fl.nan = Fl.nan := by cases a <;> rfl

@[simp] lemma fl_fin_sub_fin (x y : ℝ) : Fl.fin x - Fl.fin y = Fl.fin (x - y) := rfl

@[simp] lemma fl_nan_div (b : Fl) : Fl.nan / b = Fl.nan := by cases b <;> rfl

@[simp] lemma fl_zero_eq : (0 : Fl) = Fl.fin 0 := rfl

/-- Applying the embedded notch (three feedforward, three feedback
coefficients, leading denominator 1) to the one-sample block `[NaN]` yields
`[NaN]`: NaN is absorbing through the difference equation. -/
lemma lfilter_nan_single (b0 b1 b2 a1 a2 : ℝ) :
    lfilter (flList [b0, b1, b2]) (flList [1, a1, a2]) [Fl.nan] = [Fl.nan] := by
  have h3 : List.range 3 = [0, 1, 2] := rfl
  have h2 : List.range 2 = [0, 1] := rfl
  simp [lfilter, lfilterRec, convSum, fbSum, flList, h3, h2, List.getD]

/-- `butterBand` fails exactly when a normalized critical frequency leaves
the open interval `(0, 1)`. -/
lemma butterBand_error_iff (low high : ℝ) :
    butterBand low high = Except.error DesignError.invalidParams
      ↔ (low ≤ 0 ∨ 1 ≤ low ∨ high ≤ 0 ∨ 1 ≤ high) := by
  rw [butterBand]
  by_cases hc : low ≤ 0 ∨ 1 ≤ low ∨ high ≤ 0 ∨ 1 ≤ high
  · simp [hc]
  · simp [hc]

/-- `iirnotch` fails exactly when the normalized frequency is strictly
outside `[0, 1]`. -/
lemma iirnotch_error_iff (w0 Q : ℝ) :
    iirnotch w0 Q = Except.error DesignError.invalidParams ↔ (1 < w0 ∨ w0 < 0) := by
  rw [iirnotch]
  by_cases hc : 1 < w0 ∨ w0 < 0
  · simp [hc]
  · simp [hc]

/-! ### Real and complex interval bounds for the deployed notch -/

lemma exp_re1 (θ : ℝ) : (Complex.exp (-((θ : ℂ) * Complex.I))).re = Real.cos θ := by
  have h : -((θ : ℂ) * Complex.I) = ((-θ : ℝ) : ℂ) * Complex.I := by push_cast; ring
  rw [h, Complex.exp_ofReal_mul_I_re, Real.cos_neg]

lemma exp_im1 (θ : ℝ) : (Complex.exp (-((θ : ℂ) * Complex.I))).im = -Real.sin θ := by
  have h : -((θ : ℂ) * Complex.I) = ((-θ : ℝ) : ℂ) * Complex.I := by push_cast; ring
  rw [h, Complex.exp_ofReal_mul_I_im, Real.sin_neg]

lemma exp_re2 (θ : ℝ) :
    (Complex.exp (-((θ : ℂ) * 2 * Complex.I))).re = Real.cos (θ * 2) := by
  have h : -((θ : ℂ) * 2 * Complex.I) = ((-(θ * 2) : ℝ) : ℂ) * Complex.I := by
    push_cast
    ring
  rw [h, Complex.exp_ofReal_mul_I_re, Real.cos_neg]

lemma exp_im2 (θ : ℝ) :
    (Complex.exp (-((θ : ℂ) * 2 * Complex.I))).im = -Real.sin (θ * 2) := by
  have h : -((θ : ℂ) * 2 * Complex.I) = ((-(θ * 2) : ℝ) : ℂ) * Complex.I := by
    push_cast
    ring
  rw [h, Complex.exp_ofReal_mul_I_im, Real.sin_neg]

/-- Real part of a three-coefficient response polynomial. -/
lemma respPoly_three_re (q0 q1 q2 θ : ℝ) :
    (respPoly [q0, q1, q2] θ).re
      = q0 + q1 * Real.cos θ + q2 * Real.cos (θ * 2) := by
  have h3 : List.range 3 = [0, 1, 2] := rfl
  simp [respPoly, h3, List.getD, Complex.add_re, Complex.mul_re,
    exp_re1, exp_im1, exp_re2, exp_im2]
  ring

/-- Imaginary part of a three-coefficient response polynomial. -/
lemma respPoly_three_im (q0 q1 q2 θ : ℝ) :
    (respPoly [q0, q1, q2] θ).im
      = -(q1 * Real.sin θ) - q2 * Real.sin (θ * 2) := by
  have h3 : List.range 3 = [0, 1, 2] := rfl
  simp [respPoly, h3, List.getD, Complex.add_im, Complex.mul_im,
    exp_re1, exp_im1, exp_re2, exp_im2]
  ring

lemma sin32_bounds :
    0.0979 < Real.sin (Real.pi / 32) ∧ Real.sin (Real.pi / 32) < 0.0982 := by
  have hpi1 : (3.141592 : ℝ) < Real.pi := Real.pi_gt_d6
  have hpi2 : Real.pi < 3.141593 := Real.pi_lt_d6
  have hx1 : (0.0981747 : ℝ) < Real.pi / 32 := by linarith
  have hx2 : Real.pi / 32 < 0.0981748 := by linarith
  constructor
  · have h := Real.sin_gt_sub_cube (by linarith) (by linarith : Real.pi / 32 ≤ 1)
    have h2 : (Real.pi / 32) ^ 2 < 0.0981748 ^ 2 := by nlinarith
    have h3 : (Real.pi / 32) ^ 3 < 0.0981748 ^ 3 := by nlinarith
    nlinarith
  · have h := Real.sin_lt (show (0 : ℝ) < Real.pi / 32 by linarith)
    linarith

lemma cos1532 : Real.cos (15 / 32 * Real.pi) = Real.sin (Real.pi / 32) := by
  have h : (15 / 32 : ℝ) * Real.pi = Real.pi / 2 - Real.pi / 32 := by ring
  rw [h, Real.cos_pi_div_two_sub]

lemma tan128_bounds :
    0.0245436 < Real.tan (Real.pi / 128) ∧ Real.tan (Real.pi / 128) < 0.024552 := by
  have hpi1 : (3.141592 : ℝ) < Real.pi := Real.pi_gt_d6
  have hpi2 : Real.pi < 3.141593 := Real.pi_lt_d6
  have hx1 : (0.0245436 : ℝ) < Real.pi / 128 := by linarith
  have hx2 : Real.pi / 128 < 0.0245437 := by linarith
  have hx0 : (0 : ℝ) < Real.pi / 128 := by linarith
  have hxh : Real.pi / 128 < Real.pi / 2 := by linarith
  constructor
  · have h := Real.lt_tan hx0 hxh
    linarith
  · have hsin : Real.sin (Real.pi / 128) < 0.0245437 := by
      have := Real.sin_lt hx0
      linarith
    have hcos : (0.999698 : ℝ) < Real.cos (Real.pi / 128) := by
      have hb := Real.cos_bound
        (show |Real.pi / 128| ≤ 1 from by rw [abs_of_pos hx0]; linarith)
      rw [abs_of_pos hx0] at hb
      have habs := abs_le.mp hb
      have h2 : (Real.pi / 128) ^ 2 < 0.0245437 ^ 2 := by nlinarith
      have h4 : (Real.pi / 128) ^ 4 < 0.0245437 ^ 4 := by nlinarith
      nlinarith [habs.1]
    have hcpos : (0 : ℝ) < Real.cos (Real.pi / 128) := by linarith
    rw [Real.tan_eq_sin_div_cos, div_lt_iff₀ hcpos]
    nlinarith [Real.sin_pos_of_pos_of_lt_pi hx0 (by linarith)]

lemma cN_bounds : 0.0979 < cN ∧ cN < 0.0982 := by
  have h : ((60 : ℝ) / (0.5 * 256)) = 15 / 32 := by norm_num
  rw [cN, h, cos1532]
  exact sin32_bounds

lemma tN_bounds : 0.0245436 < tN ∧ tN < 0.024552 := by
  have h : ((60 : ℝ) / (0.5 * 256)) / 30 * Real.pi / 2 = Real.pi / 128 := by
    rw [show ((60 : ℝ) / (0.5 * 256)) / 30 = 1 / 64 from by norm_num]
    ring
  rw [tN, h]
  exact tan128_bounds

lemma gN_bounds : 0.97603 < gN ∧ gN < 0.97605 := by
  have ht := tN_bounds
  have hpos : (0 : ℝ) < 1 + tN := by linarith [ht.1]
  constructor
  · rw [gN, lt_div_iff₀ hpos]
    nlinarith [ht.2]
  · rw [gN, div_lt_iff₀ hpos]
    nlinarith [ht.1]

lemma theta10_bounds :
    (0.2454368 : ℝ) < 2 * Real.pi * 10 / 256 ∧
      (2 * Real.pi * 10 / 256 : ℝ) < 0.2454370 := by
  have hpi1 : (3.141592 : ℝ) < Real.pi := Real.pi_gt_d6
  have hpi2 : Real.pi < 3.141593 := Real.pi_lt_d6
  constructor <;> linarith

lemma ct_bounds :
    0.96969 < Real.cos (2 * Real.pi * 10 / 256) ∧
      Real.cos (2 * Real.pi * 10 / 256) < 0.97007 := by
  have hx := theta10_bounds
  have hx0 : (0 : ℝ) < 2 * Real.pi * 10 / 256 := by linarith [hx.1]
  have hb := Real.cos_bound
    (show |2 * Real.pi * 10 / 256| ≤ 1 from by rw [abs_of_pos hx0]; linarith [hx.2])
  rw [abs_of_pos hx0] at hb
  have habs := abs_le.mp hb
  have h2l : (0.2454368 : ℝ) ^ 2 < (2 * Real.pi * 10 / 256) ^ 2 := by nlinarith [hx.1]
  have h2u : (2 * Real.pi * 10 / 256) ^ 2 < (0.2454370 : ℝ) ^ 2 := by nlinarith [hx.2]
  have h4 : (2 * Real.pi * 10 / 256) ^ 4 < (0.2454370 : ℝ) ^ 4 := by nlinarith [h2u]
  constructor
  · nlinarith [habs.1]
  · nlinarith [habs.2]

lemma st_bounds :
    0.24174 < Real.sin (2 * Real.pi * 10 / 256) ∧
      Real.sin (2 * Real.pi * 10 / 256) < 0.24544 := by
  have hx := theta10_bounds
  have hx0 : (0 : ℝ) < 2 * Real.pi * 10 / 256 := by linarith [hx.1]
  constructor
  · have h := Real.sin_gt_sub_cube hx0 (by linarith [hx.2])
    have h2 : (2 * Real.pi * 10 / 256) ^ 2 < (0.2454370 : ℝ) ^ 2 := by nlinarith [hx.2]
    have h3 : (2 * Real.pi * 10 / 256) ^ 3 < (0.2454370 : ℝ) ^ 3 := by nlinarith [h2, hx.2]
    nlinarith [hx.1]
  · have h := Real.sin_lt hx0
    linarith [hx.2]

lemma c2t_bounds :
    0.87649 < Real.cos (2 * Real.pi * 10 / 256 * 2) ∧
      Real.cos (2 * Real.pi * 10 / 256 * 2) < 0.88255 := by
  have hx := theta10_bounds
  have hx1 : (0.4908736 : ℝ) < 2 * Real.pi * 10 / 256 * 2 := by linarith [hx.1]
  have hx2 : (2 * Real.pi * 10 / 256 * 2 : ℝ) < 0.4908740 := by linarith [hx.2]
  have hx0 : (0 : ℝ) < 2 * Real.pi * 10 / 256 * 2 := by linarith
  have hb := Real.cos_bound
    (show |2 * Real.pi * 10 / 256 * 2| ≤ 1 from by rw [abs_of_pos hx0]; linarith)
  rw [abs_of_pos hx0] at hb
  have habs := abs_le.mp hb
  have h2l : (0.4908736 : ℝ) ^ 2 < (2 * Real.pi * 10 / 256 * 2) ^ 2 := by nlinarith
  have h2u : (2 * Real.pi * 10 / 256 * 2) ^ 2 < (0.4908740 : ℝ) ^ 2 := by nlinarith
  have h4 : (2 * Real.pi * 10 / 256 * 2) ^ 4 < (0.4908740 : ℝ) ^ 4 := by nlinarith [h2u]
  constructor
  · nlinarith [habs.1]
  · nlinarith [habs.2]

lemma s2t_bounds :
    0.46129 < Real.sin (2 * Real.pi * 10 / 256 * 2) ∧
      Real.sin (2 * Real.pi * 10 / 256 * 2) < 0.49088 := by
  have hx := theta10_bounds
  have hx1 : (0.4908736 : ℝ) < 2 * Real.pi * 10 / 256 * 2 := by linarith [hx.1]
  have hx2 : (2 * Real.pi * 10 / 256 * 2 : ℝ) < 0.4908740 := by linarith [hx.2]
  have hx0 : (0 : ℝ) < 2 * Real.pi * 10 / 256 * 2 := by linarith
  constructor
  · have h := Real.sin_gt_sub_cube hx0 (by linarith)
    have h2 : (2 * Real.pi * 10 / 256 * 2) ^ 2 < (0.4908740 : ℝ) ^ 2 := by nlinarith
    have h3 : (2 * Real.pi * 10 / 256 * 2) ^ 3 < (0.4908740 : ℝ) ^ 3 := by nlinarith [h2]
    nlinarith
  · have h := Real.sin_lt hx0
    linarith

lemma prod_lb {x y a b : ℝ} (ha : 0 < a) (hb : 0 < b) (hx : a < x) (hy : b < y) :
    a * b < x * y := by nlinarith

lemma prod_ub {x y a b : ℝ} (hx0 : 0 < x) (hy0 : 0 < y) (hx : x < a) (hy : y < b) :
    x * y < a * b := by nlinarith

lemma sqr_lb {x a : ℝ} (ha : 0 < a) (hx : a < x) : a * a < x * x := by nlinarith

lemma sqr_ub {x a : ℝ} (h0 : 0 < x) (hx : x < a) : x * x < a * a := by nlinarith

lemma sqr_lb_neg {x a : ℝ} (ha : 0 < a) (hx : x < -a) : a * a < x * x := by nlinarith

lemma sqr_ub_neg {x a : ℝ} (hx1 : -a < x) (hx2 : x < 0) : x * x < a * a := by nlinarith

set_option maxHeartbeats 1600000 in
/-- Interval-arithmetic core of the 10 Hz passband bound: given the bracketed
values of the notch design constants and of the trigonometric values at the
10 Hz angular frequency, the squared magnitude of the numerator exceeds 9/10
of the squared magnitude of the denominator, which is positive. -/
lemma chain10 (g c ct st c2 s2 : ℝ)
    (hg1 : 0.97603 < g) (hg2 : g < 0.97605)
    (hc1 : 0.0979 < c) (hc2 : c < 0.0982)
    (hct1 : 0.96969 < ct) (hct2 : ct < 0.97007)
    (hst1 : 0.24174 < st) (hst2 : st < 0.24544)
    (hc21 : 0.87649 < c2) (hc22 : c2 < 0.88255)
    (hs21 : 0.46129 < s2) (hs22 : s2 < 0.49088) :
    9 / 10 * ((1 + -2 * g * c * ct + (2 * g - 1) * c2)
          * (1 + -2 * g * c * ct + (2 * g - 1) * c2)
        + (-(-2 * g * c * st) - (2 * g - 1) * s2)
          * (-(-2 * g * c * st) - (2 * g - 1) * s2))
      ≤ (g + -2 * g * c * ct + g * c2) * (g + -2 * g * c * ct + g * c2)
        + (-(-2 * g * c * st) - g * s2) * (-(-2 * g * c * st) - g * s2)
    ∧ 0 < (1 + -2 * g * c * ct + (2 * g - 1) * c2)
          * (1 + -2 * g * c * ct + (2 * g - 1) * c2)
        + (-(-2 * g * c * st) - (2 * g - 1) * s2)
          * (-(-2 * g * c * st) - (2 * g - 1) * s2) := by
  have hgc1 : (0.19110 : ℝ) < 2 * g * c := by
    have h := prod_lb (show (0:ℝ) < 1.95206 by norm_num) (show (0:ℝ) < 0.0979 by norm_num)
      (show (1.95206 : ℝ) < 2 * g by linarith) hc1
    norm_num at h
    linarith [h]
  have hgc2 : (2 * g * c : ℝ) < 0.19170 := by
    have h := prod_ub (show (0:ℝ) < 2 * g by linarith) (show (0:ℝ) < c by linarith)
      (show (2 * g : ℝ) < 1.95210 by linarith) hc2
    norm_num at h
    linarith [h]
  have hA1 : (0.18530 : ℝ) < 2 * g * c * ct := by
    have h := prod_lb (show (0:ℝ) < 0.19110 by norm_num) (show (0:ℝ) < 0.96969 by norm_num)
      hgc1 hct1
    norm_num at h
    linarith [h]
  have hA2 : (2 * g * c * ct : ℝ) < 0.18597 := by
    have h := prod_ub (show (0:ℝ) < 2 * g * c by linarith) (show (0:ℝ) < ct by linarith)
      hgc2 hct2
    norm_num at h
    linarith [h]
  have hB1 : (0.85547 : ℝ) < g * c2 := by
    have h := prod_lb (show (0:ℝ) < 0.97603 by norm_num) (show (0:ℝ) < 0.87649 by norm_num)
      hg1 hc21
    norm_num at h
    linarith [h]
  have hB2 : (g * c2 : ℝ) < 0.86142 := by
    have h := prod_ub (show (0:ℝ) < g by linarith) (show (0:ℝ) < c2 by linarith)
      hg2 hc22
    norm_num at h
    linarith [h]
  have hNre1 : (1.64553 : ℝ) < g + -2 * g * c * ct + g * c2 := by linarith
  have hNre2 : (g + -2 * g * c * ct + g * c2 : ℝ) < 1.65217 := by linarith
  have hNresq1 : (2.70776 : ℝ)
      < (g + -2 * g * c * ct + g * c2) * (g + -2 * g * c * ct + g * c2) := by
    have h := sqr_lb (show (0:ℝ) < 1.64553 by norm_num) hNre1
    norm_num at h
    linarith [h]
  have hNresq2 : ((g + -2 * g * c * ct + g * c2)
      * (g + -2 * g * c * ct + g * c2) : ℝ) < 2.72967 := by
    have h := sqr_ub (show (0:ℝ) < g + -2 * g * c * ct + g * c2 by linarith) hNre2
    norm_num at h
    linarith [h]
  have hC1 : (0.04619 : ℝ) < 2 * g * c * st := by
    have h := prod_lb (show (0:ℝ) < 0.19110 by norm_num) (show (0:ℝ) < 0.24174 by norm_num)
      hgc1 hst1
    norm_num at h
    linarith [h]
  have hC2 : (2 * g * c * st : ℝ) < 0.04706 := by
    have h := prod_ub (show (0:ℝ) < 2 * g * c by linarith) (show (0:ℝ) < st by linarith)
      hgc2 hst2
    norm_num at h
    linarith [h]
  have hD1 : (0.45022 : ℝ) < g * s2 := by
    have h := prod_lb (show (0:ℝ) < 0.97603 by norm_num) (show (0:ℝ) < 0.46129 by norm_num)
      hg1 hs21
    norm_num at h
    linarith [h]
  have hD2 : (g * s2 : ℝ) < 0.47913 := by
    have h := prod_ub (show (0:ℝ) < g by linarith) (show (0:ℝ) < s2 by linarith)
      hg2 hs22
    norm_num at h
    linarith [h]
  have hNim1 : (-(0.43294) : ℝ) < -(-2 * g * c * st) - g * s2 := by linarith
  have hNim2 : (-(-2 * g * c * st) - g * s2 : ℝ) < -(0.40316) := by linarith
  have hNimsq1 : (0.16253 : ℝ)
      < (-(-2 * g * c * st) - g * s2) * (-(-2 * g * c * st) - g * s2) := by
    have h := sqr_lb_neg (show (0:ℝ) < 0.40316 by norm_num) hNim2
    norm_num at h
    linarith [h]
  have hNimsq2 : ((-(-2 * g * c * st) - g * s2)
      * (-(-2 * g * c * st) - g * s2) : ℝ) < 0.18744 := by
    have h := sqr_ub_neg hNim1 (show (-(-2 * g * c * st) - g * s2 : ℝ) < 0 by linarith)
    norm_num at h
    linarith [h]
  have hE1 : (0.83447 : ℝ) < (2 * g - 1) * c2 := by
    have h := prod_lb (show (0:ℝ) < 0.95206 by norm_num) (show (0:ℝ) < 0.87649 by norm_num)
      (show (0.95206 : ℝ) < 2 * g - 1 by linarith) hc21
    norm_num at h
    linarith [h]
  have hE2 : ((2 * g - 1) * c2 : ℝ) < 0.84028 := by
    have h := prod_ub (show (0:ℝ) < 2 * g - 1 by linarith) (show (0:ℝ) < c2 by linarith)
      (show (2 * g - 1 : ℝ) < 0.95210 by linarith) hc22
    norm_num at h
    linarith [h]
  have hDre1 : (1.64850 : ℝ) < 1 + -2 * g * c * ct + (2 * g - 1) * c2 := by linarith
  have hDre2 : (1 + -2 * g * c * ct + (2 * g - 1) * c2 : ℝ) < 1.65498 := by linarith
  have hDresq1 : (2.71755 : ℝ) < (1 + -2 * g * c * ct + (2 * g - 1) * c2)
      * (1 + -2 * g * c * ct + (2 * g - 1) * c2) := by
    have h := sqr_lb (show (0:ℝ) < 1.64850 by norm_num) hDre1
    norm_num at h
    linarith [h]
  have hDresq2 : ((1 + -2 * g * c * ct + (2 * g - 1) * c2)
      * (1 + -2 * g * c * ct + (2 * g - 1) * c2) : ℝ) < 2.73896 := by
    have h := sqr_ub (show (0:ℝ) < 1 + -2 * g * c * ct + (2 * g - 1) * c2 by linarith) hDre2
    norm_num at h
    linarith [h]
  have hF1 : (0.43916 : ℝ) < (2 * g - 1) * s2 := by
    have h := prod_lb (show (0:ℝ) < 0.95206 by norm_num) (show (0:ℝ) < 0.46129 by norm_num)
      (show (0.95206 : ℝ) < 2 * g - 1 by linarith) hs21
    norm_num at h
    linarith [h]
  have hF2 : ((2 * g - 1) * s2 : ℝ) < 0.46737 := by
    have h := prod_ub (show (0:ℝ) < 2 * g - 1 by linarith) (show (0:ℝ) < s2 by linarith)
      (show (2 * g - 1 : ℝ) < 0.95210 by linarith) hs22
    norm_num at h
    linarith [h]
  have hDim1 : (-(0.42118) : ℝ) < -(-2 * g * c * st) - (2 * g - 1) * s2 := by linarith
  have hDim2 : (-(-2 * g * c * st) - (2 * g - 1) * s2 : ℝ) < -(0.39210) := by linarith
  have hDimsq1 : (0.15374 : ℝ) < (-(-2 * g * c * st) - (2 * g - 1) * s2)
      * (-(-2 * g * c * st) - (2 * g - 1) * s2) := by
    have h := sqr_lb_neg (show (0:ℝ) < 0.39210 by norm_num) hDim2
    norm_num at h
    linarith [h]
  have hDimsq2 : ((-(-2 * g * c * st) - (2 * g - 1) * s2)
      * (-(-2 * g * c * st) - (2 * g - 1) * s2) : ℝ) < 0.17740 := by
    have h := sqr_ub_neg hDim1
      (show (-(-2 * g * c * st) - (2 * g - 1) * s2 : ℝ) < 0 by linarith)
    norm_num at h
    linarith [h]
  constructor
  · linarith
  · linarith

lemma theta60_eq : (60 / (0.5 * 256) : ℝ) * Real.pi = 2 * Real.pi * 60 / 256 := by
  rw [show ((60 : ℝ) / (0.5 * 256)) = 15 / 32 from by norm_num]
  ring

lemma cN_cos60 : cN = Real.cos (2 * Real.pi * 60 / 256) := by rw [cN, theta60_eq]

/-- The notch numerator vanishes exactly at the 60 Hz angular frequency: the
numerator zeros sit on the unit circle at the notch frequency. -/
lemma respPoly_nb60 : respPoly [gN, -2 * gN * cN, gN] (2 * Real.pi * 60 / 256) = 0 := by
  apply Complex.ext
  · rw [respPoly_three_re, Complex.zero_re,
      show (2 * Real.pi * 60 / 256) * 2 = 2 * (2 * Real.pi * 60 / 256) from by ring,
      Real.cos_two_mul, ← cN_cos60]
    ring
  · rw [respPoly_three_im, Complex.zero_im,
      show (2 * Real.pi * 60 / 256) * 2 = 2 * (2 * Real.pi * 60 / 256) from by ring,
      Real.sin_two_mul, ← cN_cos60]
    ring

lemma sin60_pos : 0 < Real.sin (2 * Real.pi * 60 / 256) := by
  have hpi := Real.pi_pos
  apply Real.sin_pos_of_pos_of_lt_pi
  · linarith
  · linarith

/-- The notch denominator does not vanish at the 60 Hz angular frequency (its
imaginary part is `2·sin θ·cos θ·(1-gain) > 0`), so the zero gain at 60 Hz is
genuine and not a `0/0` artefact. -/
lemma respPoly_na60_ne :
    respPoly [1, -2 * gN * cN, 2 * gN - 1] (2 * Real.pi * 60 / 256) ≠ 0 := by
  intro h0
  have him := congrArg Complex.im h0
  rw [respPoly_three_im, Complex.zero_im,
    show (2 * Real.pi * 60 / 256) * 2 = 2 * (2 * Real.pi * 60 / 256) from by ring,
    Real.sin_two_mul, ← cN_cos60] at him
  have hs := sin60_pos
  have hc := cN_bounds
  have hg := gN_bounds
  have h1 : (0 : ℝ) < cN := by linarith [hc.1]
  have h2 : (0 : ℝ) < 1 - gN := by linarith [hg.2]
  nlinarith [him, mul_pos (mul_pos hs h1) h2]

/-! ### Streaming-filter structure lemmas -/

lemma lfilterRec_succ {α : Type} [Add α] [Mul α] [Sub α] [Div α] [Zero α]
    (b a x : List α) (n : ℕ) :
    lfilterRec b a x (n + 1)
      = lfilterRec b a x n
        ++ [(convSum b x n - fbSum a (lfilterRec b a x n) n) / a.getD 0 0] := rfl

lemma lfilterRec_length {α : Type} [Add α] [Mul α] [Sub α] [Div α] [Zero α]
    (b a x : List α) : ∀ n, (lfilterRec b a x n).length = n
  | 0 => rfl
  | n + 1 => by
    rw [lfilterRec_succ, List.length_append, lfilterRec_length b a x n]
    rfl

/-- Taking a prefix of the recursion's outputs is running the recursion for
fewer steps: the filter is causal. -/
lemma lfilterRec_take {α : Type} [Add α] [Mul α] [Sub α] [Div α] [Zero α]
    (b a x : List α) : ∀ m n, n ≤ m → (lfilterRec b a x m).take n = lfilterRec b a x n
  | 0, n, h => by
    rw [Nat.le_zero.mp h]
    rfl
  | m + 1, n, h => by
    rcases Nat.lt_or_ge n (m + 1) with hlt | hge
    · have hnm : n ≤ m := by omega
      rw [lfilterRec_succ,
        List.take_append_of_le_length (by rw [lfilterRec_length]; exact hnm)]
      exact lfilterRec_take b a x m n hnm
    · have hn : n = m + 1 := by omega
      subst hn
      exact List.take_of_length_le (by rw [lfilterRec_length])

/-- The feedforward sum at output index `n` only reads input samples up to
index `n`, so appending later samples does not change it. -/
lemma convSum_append {α : Type} [Add α] [Mul α] [Zero α]
    (b xs ys : List α) (n : ℕ) (h : n < xs.length) :
    convSum b (xs ++ ys) n = convSum b xs n := by
  unfold convSum
  congr 1
  apply List.map_congr_left
  intro i _
  congr 1
  rcases le_or_lt i n with hin | hin
  · rw [if_pos hin, if_pos hin, List.getD_append]
    omega
  · rw [if_neg (by omega), if_neg (by omega)]

/-- Running the zero-state recursion on a longer signal agrees with running
it on a prefix, for output indices inside the prefix. -/
lemma lfilterRec_prefix {α : Type} [Add α] [Mul α] [Sub α] [Div α] [Zero α]
    (b a xs ys : List α) :
    ∀ n, n ≤ xs.length → lfilterRec b a (xs ++ ys) n = lfilterRec b a xs n
  | 0, _ => rfl
  | n + 1, h => by
    rw [lfilterRec_succ, lfilterRec_succ,
      lfilterRec_prefix b a xs ys n (by omega), convSum_append b xs ys n (by omega)]

/-- One-sample evaluation of the embedded filter (order-2 coefficients with
unit leading denominator). -/
lemma lfilter_ev1 (b0 b1 b2 a1 a2 x0 : ℝ) :
    lfilter [b0, b1, b2] [1, a1, a2] [x0] = [b0 * x0] := by
  have h3 : List.range 3 = [0, 1, 2] := rfl
  have h2 : List.range 2 = [0, 1] := rfl
  simp [lfilter, lfilterRec, convSum, fbSum, h3, h2, List.getD]

/-- Two-sample evaluation of the embedded filter. -/
lemma lfilter_ev2 (b0 b1 b2 a1 a2 x0 x1 : ℝ) :
    lfilter [b0, b1, b2] [1, a1, a2] [x0, x1]
      = [b0 * x0, b0 * x1 + b1 * x0 - a1 * (b0 * x0)] := by
  have h3 : List.range 3 = [0, 1, 2] := rfl
  have h2 : List.range 2 = [0, 1] := rfl
  simp [lfilter, lfilterRec, convSum, fbSum, h3, h2, List.getD]

/-- Shared product bound for the leading notch cross-coefficient. -/
lemma twoGC_bounds : 0.19110 < 2 * gN * cN ∧ 2 * gN * cN < 0.19170 := by
  have hg := gN_bounds
  have hc := cN_bounds
  constructor
  · have h := prod_lb (show (0:ℝ) < 1.95206 by norm_num) (show (0:ℝ) < 0.0979 by norm_num)
      (show (1.95206 : ℝ) < 2 * gN by linarith [hg.1]) hc.1
    norm_num at h
    linarith [h]
  · have h := prod_ub (show (0:ℝ) < 2 * gN by linarith [hg.1])
      (show (0:ℝ) < cN by linarith [hc.1])
      (show (2 * gN : ℝ) < 1.95210 by linarith [hg.2]) hc.2
    norm_num at h
    linarith [h]

/-! ## Claims -/

/-- C3 counterexample: `create_notch_filter(128, 256)` has its center
frequency outside the open interval `(0, fs/2) = (0, 128)` — it sits exactly
at the Nyquist frequency — yet no error is raised: scipy's `iirnotch`
validation (`w0 > 1.0 or w0 < 0.0`) accepts the normalized value `1.0` and a
filter is returned. -/
theorem claim_C3_cex :
    (128 : ℝ) ∉ Set.Ioo (0 : ℝ) (256 / 2) ∧
      create_notch_filter 128 256 30 = Except.ok (notchCoeffs 1 30) := by
  constructor
  · intro h
    rw [Set.mem_Ioo] at h
    exact absurd h.2 (by norm_num)
  · have harg : (128 : ℝ) / (0.5 * 256) = 1 := by norm_num
    rw [create_notch_filter, harg, iirnotch, if_neg (by norm_num)]

/-- C3 (amended): for positive sampling rate, `create_bandpass` fails with
scipy's design-time `ValueError` exactly when a band edge
`center ± bandwidth/2` leaves the open interval `(0, fs/2)`, while
`create_notch_filter` fails exactly when the center frequency is strictly
outside the closed interval `[0, fs/2]` — at exactly `0` or `fs/2` the scipy
validation accepts the parameter and a filter is returned (see the
counterexample). No filter value is ever returned in the failing cases. -/
theorem claim_C3 (center bandwidth f fs q : ℝ) (hfs : 0 < fs) :
    (create_bandpass center bandwidth fs = Except.error DesignError.invalidParams
      ↔ (center - bandwidth / 2 ∉ Set.Ioo (0 : ℝ) (fs / 2) ∨
          center + bandwidth / 2 ∉ Set.Ioo (0 : ℝ) (fs / 2))) ∧
    (create_notch_filter f fs q = Except.error DesignError.invalidParams
      ↔ (f < 0 ∨ fs / 2 < f)) := by
  have hN : (0 : ℝ) < 0.5 * fs := by nlinarith
  have hhalf : (0.5 : ℝ) * fs = fs / 2 := by ring
  constructor
  · rw [create_bandpass, butterBand_error_iff]
    have h1 : (center - bandwidth / 2) / (0.5 * fs) ≤ 0
        ↔ center - bandwidth / 2 ≤ 0 := by
      rw [div_le_iff₀ hN]
      simp
    have h2 : 1 ≤ (center - bandwidth / 2) / (0.5 * fs)
        ↔ fs / 2 ≤ center - bandwidth / 2 := by
      rw [le_div_iff₀ hN, one_mul, hhalf]
    have h3 : (center + bandwidth / 2) / (0.5 * fs) ≤ 0
        ↔ center + bandwidth / 2 ≤ 0 := by
      rw [div_le_iff₀ hN]
      simp
    have h4 : 1 ≤ (center + bandwidth / 2) / (0.5 * fs)
        ↔ fs / 2 ≤ center + bandwidth / 2 := by
      rw [le_div_iff₀ hN, one_mul, hhalf]
    rw [h1, h2, h3, h4, Set.mem_Ioo, Set.mem_Ioo]
    push_neg
    constructor
    · rintro (h | h | h | h)
      · exact Or.inl (fun hx => absurd h (not_le.mpr hx))
      · exact Or.inl (fun _ => h)
      · exact Or.inr (fun hx => absurd h (not_le.mpr hx))
      · exact Or.inr (fun _ => h)
    · rintro (h | h)
      · rcases le_or_lt (center - bandwidth / 2) 0 with h0 | h0
        · exact Or.inl h0
        · exact Or.inr (Or.inl (h h0))
      · rcases le_or_lt (center + bandwidth / 2) 0 with h0 | h0
        · exact Or.inr (Or.inr (Or.inl h0))
        · exact Or.inr (Or.inr (Or.inr (h h0)))
  · rw [create_notch_filter, iirnotch_error_iff]
    have h5 : 1 < f / (0.5 * fs) ↔ fs / 2 < f := by
      rw [lt_div_iff₀ hN, one_mul, hhalf]
    have h6 : f / (0.5 * fs) < 0 ↔ f < 0 := by
      rw [div_lt_iff₀ hN]
      simp
    rw [h5, h6]
    tauto

/-- Witness for C3 (amended) at the deployed alpha-bandpass and notch
parameters. -/
theorem claim_C3_witness :
    (0 : ℝ) < 256 ∧
      ((create_bandpass 12 2 256 = Except.error DesignError.invalidParams
        ↔ ((12 : ℝ) - 2 / 2 ∉ Set.Ioo (0 : ℝ) (256 / 2) ∨
            (12 : ℝ) + 2 / 2 ∉ Set.Ioo (0 : ℝ) (256 / 2))) ∧
       (create_notch_filter 60 256 30 = Except.error DesignError.invalidParams
        ↔ ((60 : ℝ) < 0 ∨ (256 : ℝ) / 2 < 60))) :=
  ⟨by norm_num, claim_C3 12 2 60 256 30 (by norm_num)⟩

/-- C9: if the current block is empty, `update` returns immediately: no
filtering, no transform, no aggregation, no emission, and every piece of
state (including all previously written plot surfaces) is left unchanged. -/
theorem claim_C9 (s : VisState) (h : s.timeSignal = []) : update s = (s, none) := by
  rw [update, if_pos (by rw [h]; rfl)]

/-- Witness for C9 at a concrete empty-slot state. -/
theorem claim_C9_witness :
    (VisState.mk [] [] [] []).timeSignal = [] ∧
      update ⟨[], [], [], []⟩ = (⟨[], [], [], []⟩, none) :=
  ⟨rfl, claim_C9 ⟨[], [], [], []⟩ rfl⟩

/-- C8: per-block processing is deterministic and read-only on the shared
slot: running `update` leaves `timeSignal` unchanged, and running it again
immediately (no intervening `audio_callback` write) produces the identical
state and identical emitted outputs. -/
theorem claim_C8 (s : VisState) :
    (update s).1.timeSignal = s.timeSignal ∧ update ((update s).1) = update s := by
  by_cases h : s.timeSignal.length = 0
  · rw [update, if_pos h]
    refine ⟨rfl, ?_⟩
    show update s = (s, none)
    rw [update, if_pos h]
  · constructor
    · rw [update, if_neg h]
    · conv_lhs => rw [update]
      rw [update, if_neg h]
      rw [if_neg (by simpa using h)]

/-- C4 counterexample: on the raw block `[NaN]` the per-block processing
yields a non-finite filtered block, yet `update` raises nothing — it emits
the outputs, with the NaN inside the filtered waveform. There is no
`ProcessingFailure` path in the code. -/
theorem claim_C4_cex :
    (update ⟨[Fl.nan], [], [], []⟩).2.isSome = true ∧
      (update ⟨[Fl.nan], [], [], []⟩).2.map UpdateOut.filtered = some [Fl.nan] := by
  have hne : (VisState.mk [Fl.nan] [] [] []).timeSignal.length ≠ 0 := by simp
  have hf : lfilter nbF naF [Fl.nan] = [Fl.nan] := by
    simp only [nbF, naF, nb, na, notchBA, notchCoeffs, flList]
    exact lfilter_nan_single _ _ _ _ _
  rw [update, if_neg hne]
  exact ⟨rfl, by simp [hf]⟩

/-- C4 (amended): `update` has no failure path at all: for every nonempty raw
block it emits the per-cycle outputs unconditionally, performing no
finiteness check, so non-finite values (see the counterexample) propagate
into the emitted data instead of raising a `ProcessingFailure`. -/
theorem claim_C4 (s : VisState) (h : s.timeSignal.length ≠ 0) :
    ((update s).2).isSome = true := by
  rw [update, if_neg h]
  rfl

/-- Witness for C4 (amended) at a concrete one-sample block. -/
theorem claim_C4_witness :
    (VisState.mk [Fl.fin 1] [] [] []).timeSignal.length ≠ 0 ∧
      (update ⟨[Fl.fin 1], [], [], []⟩).2.isSome = true :=
  ⟨by simp, claim_C4 ⟨[Fl.fin 1], [], [], []⟩ (by simp)⟩

/-- C6: for every magnitude spectrum (129 bins), the code's `avg_heights`
aggregation returns, for each of the six fixed bands Delta `[0,4]`,
Theta `[4,8]`, Alpha `[8,12]`, LowBeta `[12,20]`, HighBeta `[20,30]`,
Gamma `[30,45]` in source order, exactly the arithmetic mean of the
magnitudes of the spectrum bins whose frequency lies in the closed interval
`[low, high]` (both endpoints inclusive). -/
theorem claim_C6 {α : Type} [Field α] (s : List α) (h : s.length = 129) :
    avgHeights s
      = [some (specBandAvg 0 4 s), some (specBandAvg 4 8 s),
         some (specBandAvg 8 12 s), some (specBandAvg 12 20 s),
         some (specBandAvg 20 30 s), some (specBandAvg 30 45 s)] :=
  avgHeights_eq_spec s h

/-- Witness for C6 at the all-zero 129-bin spectrum. -/
theorem claim_C6_witness :
    (List.replicate 129 (0 : ℝ)).length = 129 ∧
      avgHeights (List.replicate 129 (0 : ℝ))
        = [some (specBandAvg 0 4 (List.replicate 129 (0 : ℝ))),
           some (specBandAvg 4 8 (List.replicate 129 (0 : ℝ))),
           some (specBandAvg 8 12 (List.replicate 129 (0 : ℝ))),
           some (specBandAvg 12 20 (List.replicate 129 (0 : ℝ))),
           some (specBandAvg 20 30 (List.replicate 129 (0 : ℝ))),
           some (specBandAvg 30 45 (List.replicate 129 (0 : ℝ)))] :=
  ⟨by simp, claim_C6 (List.replicate 129 (0 : ℝ)) (by simp)⟩

/-- C2 counterexample: the band `[9/2, 19/4]` contains zero spectrum bins
(its mask is all `false`), and on it the code's aggregation
`np.mean(fft_data[mask])` returns NaN (modelled as `none`), not a finite
fallback value. -/
theorem claim_C2_cex :
    bandMask (9 / 2) (19 / 4) = List.replicate 129 false ∧
      npMean (boolSelect (bandMask (9 / 2) (19 / 4)) (List.replicate 129 (1 : ℝ)))
        = none := by
  refine ⟨emptyBand_mask, ?_⟩
  rw [emptyBand_mask, boolSelect_false]
  rfl

/-- C2 (amended): the aggregation of a band with zero matching bins yields
NaN (`np.mean` of an empty selection), not a finite fallback; however, in the
deployed configuration each of the six fixed bands selects at least one bin,
so `avg_heights` itself always returns finite means, never NaN. -/
theorem claim_C2 {α : Type} [Field α] (s : List α) (h : s.length = 129) :
    ∀ o ∈ avgHeights s, o.isSome := by
  intro o ho
  rw [avgHeights_eq_spec s h] at ho
  simp only [List.mem_cons, List.not_mem_nil, or_false] at ho
  rcases ho with rfl | rfl | rfl | rfl | rfl | rfl <;> rfl

/-- Witness for C2 (amended) at the all-one 129-bin spectrum. -/
theorem claim_C2_witness :
    (List.replicate 129 (1 : ℝ)).length = 129 ∧
      ∀ o ∈ avgHeights (List.replicate 129 (1 : ℝ)), o.isSome :=
  ⟨by simp, claim_C2 (List.replicate 129 (1 : ℝ)) (by simp)⟩

/-- C10: because band intervals are closed on both ends and adjacent bands
share an endpoint, with 1 Hz bin spacing the spectrum bins at exactly 4, 8,
12, 20 and 30 Hz are each selected into the averaged bin set of both of the
two adjacent bands sharing that boundary frequency. -/
theorem claim_C10 (s : List ℝ) (h : s.length = 129) :
    (s.getD 4 0 ∈ boolSelect (bandMask 0 4) s ∧
      s.getD 4 0 ∈ boolSelect (bandMask 4 8) s) ∧
    (s.getD 8 0 ∈ boolSelect (bandMask 4 8) s ∧
      s.getD 8 0 ∈ boolSelect (bandMask 8 12) s) ∧
    (s.getD 12 0 ∈ boolSelect (bandMask 8 12) s ∧
      s.getD 12 0 ∈ boolSelect (bandMask 12 20) s) ∧
    (s.getD 20 0 ∈ boolSelect (bandMask 12 20) s ∧
      s.getD 20 0 ∈ boolSelect (bandMask 20 30) s) ∧
    (s.getD 30 0 ∈ boolSelect (bandMask 20 30) s ∧
      s.getD 30 0 ∈ boolSelect (bandMask 30 45) s) := by
  have h04 := boolSelect_bandMask 0 4 s h
  have h48 := boolSelect_bandMask 4 8 s h
  have h812 := boolSelect_bandMask 8 12 s h
  have h1220 := boolSelect_bandMask 12 20 s h
  have h2030 := boolSelect_bandMask 20 30 s h
  have h3045 := boolSelect_bandMask 30 45 s h
  norm_num at h04 h48 h812 h1220 h2030 h3045
  refine ⟨⟨?_, ?_⟩, ⟨?_, ?_⟩, ⟨?_, ?_⟩, ⟨?_, ?_⟩, ?_, ?_⟩
  · rw [h04]
    exact List.mem_map.mpr ⟨4, by decide, by simp [List.getD]⟩
  · rw [h48]
    exact List.mem_map.mpr ⟨4, by decide, by simp [List.getD]⟩
  · rw [h48]
    exact List.mem_map.mpr ⟨8, by decide, by simp [List.getD]⟩
  · rw [h812]
    exact List.mem_map.mpr ⟨8, by decide, by simp [List.getD]⟩
  · rw [h812]
    exact List.mem_map.mpr ⟨12, by decide, by simp [List.getD]⟩
  · rw [h1220]
    exact List.mem_map.mpr ⟨12, by decide, by simp [List.getD]⟩
  · rw [h1220]
    exact List.mem_map.mpr ⟨20, by decide, by simp [List.getD]⟩
  · rw [h2030]
    exact List.mem_map.mpr ⟨20, by decide, by simp [List.getD]⟩
  · rw [h2030]
    exact List.mem_map.mpr ⟨30, by decide, by simp [List.getD]⟩
  · rw [h3045]
    exact List.mem_map.mpr ⟨30, by decide, by simp [List.getD]⟩

/-- C5: the spectral transform operates on the block brought to length
`fftSize = 256`: `np.abs(np.fft.rfft(x, 256))` transforms `fit x 256`, which
always has length 256; a block shorter than 256 samples is zero-padded at the
end and a longer one is truncated; in particular the normal 240-sample capture
block is zero-padded with 16 zeros. -/
theorem claim_C5 (x : List ℝ) :
    rfftAbs x 256 = rfftAbs (fit x 256) 256 ∧
    (fit x 256).length = 256 ∧
    (x.length = 240 → fit x 256 = x ++ List.replicate 16 0) ∧
    (256 ≤ x.length → fit x 256 = x.take 256) := by
  refine ⟨?_, fit_length x 256, ?_, fun h => fit_of_long x 256 h⟩
  · rw [rfftAbs, rfftAbs, fit_idem]
  · intro h
    rw [fit_of_short x 256 (by omega), h]

/-- Witness for C5: a 240-sample block gains exactly 16 zeros, and an
overlong 300-sample block is truncated. -/
theorem claim_C5_witness :
    ((List.replicate 240 (0 : ℝ)).length = 240 ∧
      fit (List.replicate 240 (0 : ℝ)) 256
        = List.replicate 240 (0 : ℝ) ++ List.replicate 16 0) ∧
    (256 ≤ (List.replicate 300 (0 : ℝ)).length ∧
      fit (List.replicate 300 (0 : ℝ)) 256 = (List.replicate 300 (0 : ℝ)).take 256) :=
  ⟨⟨by rw [List.length_replicate], (claim_C5 (List.replicate 240 (0 : ℝ))).2.2.1
      (by rw [List.length_replicate])⟩,
   ⟨by rw [List.length_replicate]; norm_num, (claim_C5 (List.replicate 300 (0 : ℝ))).2.2.2
      (by rw [List.length_replicate]; norm_num)⟩⟩

/-- Witness for C10 at the all-zero 129-bin spectrum. -/
theorem claim_C10_witness :
    (List.replicate 129 (0 : ℝ)).length = 129 ∧
      ((List.replicate 129 (0 : ℝ)).getD 4 0
          ∈ boolSelect (bandMask 0 4) (List.replicate 129 (0 : ℝ)) ∧
        (List.replicate 129 (0 : ℝ)).getD 4 0
          ∈ boolSelect (bandMask 4 8) (List.replicate 129 (0 : ℝ))) :=
  ⟨by simp, (claim_C10 (List.replicate 129 (0 : ℝ)) (by simp)).1⟩

/-- C7: the deployed second-order notch at `fs = 256` has steady-state gain
exactly 0 at 60 Hz — at least 20 dB of attenuation (gain `≤ 1/10`), indeed
total, with a genuinely nonvanishing denominator — while a 10 Hz sinusoid
passes with less than 1 dB of attenuation: the gain at 10 Hz satisfies
`gain^20 > 1/10`, i.e. gain `> 10^(-1/20)`. Steady-state amplitude gain is
formalized as the magnitude of the filter's frequency response
(`freqResponse`), the standard steady-state description of a stable LTI
filter; `θ = 2πf/fs`. -/
theorem claim_C7 :
    Complex.abs (freqResponse nb na (2 * Real.pi * 60 / 256)) = 0 ∧
      respPoly na (2 * Real.pi * 60 / 256) ≠ 0 ∧
      1 / 10 < Complex.abs (freqResponse nb na (2 * Real.pi * 10 / 256)) ^ 20 := by
  refine ⟨?_, ?_, ?_⟩
  · rw [freqResponse, nb_eq, respPoly_nb60, zero_div, map_zero]
  · rw [na_eq]
    exact respPoly_na60_ne
  · have h9 : 9 / 10 * Complex.normSq (respPoly na (2 * Real.pi * 10 / 256))
          ≤ Complex.normSq (respPoly nb (2 * Real.pi * 10 / 256)) ∧
        0 < Complex.normSq (respPoly na (2 * Real.pi * 10 / 256)) := by
      rw [nb_eq, na_eq, Complex.normSq_apply, Complex.normSq_apply,
        respPoly_three_re, respPoly_three_im, respPoly_three_re, respPoly_three_im]
      exact chain10 gN cN (Real.cos (2 * Real.pi * 10 / 256))
        (Real.sin (2 * Real.pi * 10 / 256)) (Real.cos (2 * Real.pi * 10 / 256 * 2))
        (Real.sin (2 * Real.pi * 10 / 256 * 2))
        gN_bounds.1 gN_bounds.2 cN_bounds.1 cN_bounds.2
        ct_bounds.1 ct_bounds.2 st_bounds.1 st_bounds.2
        c2t_bounds.1 c2t_bounds.2 s2t_bounds.1 s2t_bounds.2
    have habs2 : Complex.abs (freqResponse nb na (2 * Real.pi * 10 / 256)) ^ 2
        = Complex.normSq (respPoly nb (2 * Real.pi * 10 / 256))
          / Complex.normSq (respPoly na (2 * Real.pi * 10 / 256)) := by
      rw [freqResponse, Complex.sq_abs, Complex.normSq_div]
    have hquot : (9 / 10 : ℝ)
        ≤ Complex.abs (freqResponse nb na (2 * Real.pi * 10 / 256)) ^ 2 := by
      rw [habs2, le_div_iff₀ h9.2]
      exact h9.1
    have h20 : Complex.abs (freqResponse nb na (2 * Real.pi * 10 / 256)) ^ 20
        = (Complex.abs (freqResponse nb na (2 * Real.pi * 10 / 256)) ^ 2) ^ 10 := by
      ring
    rw [h20]
    have hmono : ((9 : ℝ) / 10) ^ 10
        ≤ (Complex.abs (freqResponse nb na (2 * Real.pi * 10 / 256)) ^ 2) ^ 10 :=
      pow_le_pow_left₀ (by norm_num) hquot 10
    have hnum : (1 / 10 : ℝ) < (9 / 10 : ℝ) ^ 10 := by norm_num
    linarith

/-- C1 counterexample: `apply_filter` carries no state between calls, so
filtering the two-sample signal `[1, 0]` in one pass and filtering it as the
two consecutive one-sample blocks `[1]`, `[0]` (outputs concatenated) give
different results with the deployed notch filter: the second output sample
differs by `2·gain·cos(w0·π)·(1-gain) > 1/250`, far beyond numerical
tolerance. -/
theorem claim_C1_cex :
    lfilter nb na ([(1 : ℝ)] ++ [0]) ≠ lfilter nb na [(1 : ℝ)] ++ lfilter nb na [0] ∧
      1 / 250 < |(lfilter nb na ([(1 : ℝ)] ++ [0])).getD 1 0
        - (lfilter nb na [(1 : ℝ)] ++ lfilter nb na [0]).getD 1 0| := by
  have hfull : lfilter nb na [(1 : ℝ), 0]
      = [gN * 1, gN * 0 + -2 * gN * cN * 1 - -2 * gN * cN * (gN * 1)] := by
    rw [nb_eq, na_eq]
    exact lfilter_ev2 gN (-2 * gN * cN) gN (-2 * gN * cN) (2 * gN - 1) 1 0
  have hs1 : lfilter nb na [(1 : ℝ)] = [gN * 1] := by
    rw [nb_eq, na_eq]
    exact lfilter_ev1 gN (-2 * gN * cN) gN (-2 * gN * cN) (2 * gN - 1) 1
  have hs2 : lfilter nb na [(0 : ℝ)] = [gN * 0] := by
    rw [nb_eq, na_eq]
    exact lfilter_ev1 gN (-2 * gN * cN) gN (-2 * gN * cN) (2 * gN - 1) 0
  have happ : ([(1 : ℝ)] ++ [0] : List ℝ) = [(1 : ℝ), 0] := rfl
  have hgc := twoGC_bounds
  have hg := gN_bounds
  have hprod : (0.004576 : ℝ) < 2 * gN * cN * (1 - gN) := by
    have h := prod_lb (show (0:ℝ) < 0.19110 by norm_num)
      (show (0:ℝ) < 0.02395 by norm_num) hgc.1
      (show (0.02395 : ℝ) < 1 - gN by linarith [hg.2])
    norm_num at h
    linarith [h]
  have hdiff : (lfilter nb na ([(1 : ℝ)] ++ [0])).getD 1 0
      - (lfilter nb na [(1 : ℝ)] ++ lfilter nb na [0]).getD 1 0
      = -(2 * gN * cN * (1 - gN)) := by
    rw [happ, hfull, hs1, hs2]
    simp [List.getD]
    ring
  constructor
  · intro heq
    rw [heq, sub_self] at hdiff
    linarith [hdiff, hprod]
  · rw [hdiff, abs_of_neg (by nlinarith [hprod])]
    nlinarith [hprod]

/-- C1 (amended): `apply_filter` calls `lfilter` with zero initial conditions
on every call and keeps no filter state, so block-by-block processing equals
filtering each block independently from rest. Consequently the one-pass
output and the block-by-block output agree exactly on the first block — the
filter is causal — but differ beyond it (see the counterexample): there is no
cross-block streaming continuity. -/
theorem claim_C1 {α : Type} [Add α] [Mul α] [Sub α] [Div α] [Zero α]
    (b a xs ys : List α) :
    (lfilter b a (xs ++ ys)).take xs.length = lfilter b a xs := by
  rw [lfilter, lfilter, List.length_append,
    lfilterRec_take b a (xs ++ ys) (xs.length + ys.length) xs.length (by omega)]
  exact lfilterRec_prefix b a xs ys xs.length le_rfl

end ProcessEEG
